import Mathlib

/-!
Shallow embedding of the FinEdge persistence / aggregation core and the
token-signing subsystem, with theorems checking the specification's claims
against the code.

Amounts are modelled as rationals (JS numbers used exactly on the inputs the
claims discuss), timestamps as integers (epoch seconds / ISO instants under
their natural order), and JSON objects as Lean structures or association
lists.  External library collaborators (base64 / JSON serialization, the
HMAC primitive) are parameters of the token definitions: the code only uses
their determinism and round-trip behaviour, which the theorems take as
hypotheses and the witnesses discharge on concrete instances.
-/

/-- Error-class names from `utils/errors.js` (the error taxonomy kinds). -/
inductive ErrorName where
  | ValidationError
  | NotFoundError
  | AuthenticationError
  | ConflictError
  | DatabaseError
  deriving DecidableEq, Repr

/-! ## Aggregation engine: `TransactionService.getSummary` (file backend) -/

/-- Transaction kind: the closed `income`/`expense` enumeration
(`validateTransaction` rejects any third value). -/
inductive TxnType where
  | income
  | expense
  deriving DecidableEq, Repr

/-- The fields of a transaction record that the aggregation pass reads. -/
structure Txn where
  userId : String
  type : TxnType
  category : String
  amount : ℚ
  deriving DecidableEq, Repr

/-- `parseFloat(x.toFixed(2))`: round to two decimal places
(ECMA `toFixed` picks the larger candidate on ties, i.e. half-up). -/
def round2 (q : ℚ) : ℚ := (Int.floor (q * 100 + 1 / 2) : ℚ) / 100

/-- `incomeByCategory[cat] = (incomeByCategory[cat] || 0) + amount` on a
JS object modelled as an association list. -/
def addToCategory : List (String × ℚ) → String → ℚ → List (String × ℚ)
  | [], cat, amt => [(cat, amt)]
  | (k, v) :: rest, cat, amt =>
      if k = cat then (k, v + amt) :: rest
      else (k, v) :: addToCategory rest cat amt

/-- Accumulator of the single `forEach` pass in `getSummary`. -/
structure SummaryAcc where
  totalIncome : ℚ
  totalExpense : ℚ
  incomeByCategory : List (String × ℚ)
  expenseByCategory : List (String × ℚ)
  deriving Repr

/-- One step of the `forEach` body in `TransactionService.getSummary`:
income records add to `totalIncome` and its category map, everything else
adds to `totalExpense` and its category map. -/
def summaryStep (acc : SummaryAcc) (t : Txn) : SummaryAcc :=
  match t.type with
  | .income =>
      { acc with
        totalIncome := acc.totalIncome + t.amount
        incomeByCategory := addToCategory acc.incomeByCategory t.category t.amount }
  | .expense =>
      { acc with
        totalExpense := acc.totalExpense + t.amount
        expenseByCategory := addToCategory acc.expenseByCategory t.category t.amount }

/-- The summary report returned by `TransactionService.getSummary`. -/
structure Summary where
  totalIncome : ℚ
  totalExpense : ℚ
  netSavings : ℚ
  savingsPercentage : ℚ
  incomeByCategory : List (String × ℚ)
  expenseByCategory : List (String × ℚ)
  transactionCount : ℕ
  deriving Repr

namespace TransactionService

/-- `TransactionService.getSummary` aggregation (file backend,
`src/services/TransactionService.js` lines 139-166), applied to the
already-filtered record set. -/
def getSummary (filtered : List Txn) : Summary :=
  let acc := filtered.foldl summaryStep ⟨0, 0, [], []⟩
  let netSavings := acc.totalIncome - acc.totalExpense
  let savingsPercentage : ℚ :=
    if acc.totalIncome > 0 then netSavings / acc.totalIncome * 100 else 0
  { totalIncome := acc.totalIncome
    totalExpense := acc.totalExpense
    netSavings := netSavings
    savingsPercentage := round2 savingsPercentage
    incomeByCategory := acc.incomeByCategory
    expenseByCategory := acc.expenseByCategory
    transactionCount := filtered.length }

end TransactionService

/-- Sum of the amounts of the records of one kind. -/
def amountSum (ty : TxnType) (ts : List Txn) : ℚ :=
  (ts.filter fun t => t.type = ty).foldl (fun s t => s + t.amount) 0

theorem foldl_add_amount (ts : List Txn) (a : ℚ) :
    ts.foldl (fun s t => s + t.amount) a = a + ts.foldl (fun s t => s + t.amount) 0 := by
  induction ts generalizing a with
  | nil => simp
  | cons t ts ih =>
      simp only [List.foldl_cons]
      rw [ih (a + t.amount), ih (0 + t.amount)]
      ring

theorem amountSum_cons (ty : TxnType) (t : Txn) (ts : List Txn) :
    amountSum ty (t :: ts) =
      (if t.type = ty then t.amount else 0) + amountSum ty ts := by
  by_cases h : t.type = ty
  · have hf : List.filter (fun x => decide (x.type = ty)) (t :: ts) =
        t :: List.filter (fun x => decide (x.type = ty)) ts := by
      simp [List.filter_cons, h]
    rw [amountSum, hf, List.foldl_cons, zero_add, foldl_add_amount, if_pos h, amountSum]
  · simp [amountSum, List.filter_cons, h]

theorem summary_foldl_totals (ts : List Txn) (acc : SummaryAcc) :
    (ts.foldl summaryStep acc).totalIncome = acc.totalIncome + amountSum .income ts ∧
    (ts.foldl summaryStep acc).totalExpense = acc.totalExpense + amountSum .expense ts := by
  induction ts generalizing acc with
  | nil => simp [amountSum]
  | cons t ts ih =>
      rcases ih (summaryStep acc t) with ⟨hi, he⟩
      constructor
      · rw [List.foldl_cons, hi, amountSum_cons]
        cases h : t.type <;> simp [summaryStep, h] <;> ring
      · rw [List.foldl_cons, he, amountSum_cons]
        cases h : t.type <;> simp [summaryStep, h] <;> ring

theorem round2_zero : round2 0 = 0 := by
  have h : ((0 : ℚ) * 100 + 1 / 2) = 1 / 2 := by ring
  have hf : Int.floor ((1 : ℚ) / 2) = 0 := by
    rw [Int.floor_eq_zero_iff]
    constructor <;> norm_num
  rw [round2, h, hf]
  norm_num

/-- **C1.** For every record set, `getSummary` returns `totalIncome` equal to
the sum of income amounts, `totalExpense` the sum of expense amounts,
`netSavings = totalIncome - totalExpense`, and `savingsPercentage` equal to
`(netSavings / totalIncome) * 100` rounded to two decimals when
`totalIncome > 0` and `0` otherwise; on
`[{income,100}, {expense,30}, {expense,20}]` it yields `100, 50, 50, 50.00`. -/
theorem C1_getSummary_correct :
    (∀ ts : List Txn,
      (TransactionService.getSummary ts).totalIncome = amountSum .income ts ∧
      (TransactionService.getSummary ts).totalExpense = amountSum .expense ts ∧
      (TransactionService.getSummary ts).netSavings =
        amountSum .income ts - amountSum .expense ts ∧
      (TransactionService.getSummary ts).savingsPercentage =
        (if amountSum .income ts > 0 then
          round2 ((amountSum .income ts - amountSum .expense ts) / amountSum .income ts * 100)
        else 0)) ∧
    (TransactionService.getSummary
        [⟨"u1", .income, "salary", 100⟩, ⟨"u1", .expense, "food", 30⟩,
         ⟨"u1", .expense, "rent", 20⟩]).totalIncome = 100 ∧
    (TransactionService.getSummary
        [⟨"u1", .income, "salary", 100⟩, ⟨"u1", .expense, "food", 30⟩,
         ⟨"u1", .expense, "rent", 20⟩]).totalExpense = 50 ∧
    (TransactionService.getSummary
        [⟨"u1", .income, "salary", 100⟩, ⟨"u1", .expense, "food", 30⟩,
         ⟨"u1", .expense, "rent", 20⟩]).netSavings = 50 ∧
    (TransactionService.getSummary
        [⟨"u1", .income, "salary", 100⟩, ⟨"u1", .expense, "food", 30⟩,
         ⟨"u1", .expense, "rent", 20⟩]).savingsPercentage = 50 := by
  refine ⟨fun ts => ?_, ?_, ?_, ?_, ?_⟩
  · obtain ⟨hi, he⟩ := summary_foldl_totals ts ⟨0, 0, [], []⟩
    refine ⟨?_, ?_, ?_, ?_⟩
    · simpa [TransactionService.getSummary] using hi
    · simpa [TransactionService.getSummary] using he
    · simp only [TransactionService.getSummary]
      rw [hi, he]; ring_nf
    · simp only [TransactionService.getSummary]
      rw [hi, he]
      simp only [zero_add]
      by_cases hpos : amountSum .income ts > 0
      · rw [if_pos hpos, if_pos hpos]
      · rw [if_neg hpos, if_neg hpos, round2_zero]
  · simp only [TransactionService.getSummary, List.foldl_cons, List.foldl_nil, summaryStep]
    norm_num
  · simp only [TransactionService.getSummary, List.foldl_cons, List.foldl_nil, summaryStep]
    norm_num
  · simp only [TransactionService.getSummary, List.foldl_cons, List.foldl_nil, summaryStep]
    norm_num
  · simp only [TransactionService.getSummary, List.foldl_cons, List.foldl_nil, summaryStep]
    norm_num [round2]

/-! ## Token service: `JWTService` (`generateToken` / `verifyToken`)

Tokens are modelled at the level of their dot-separated segments
(`token.split('.')`), so a token value is a `List String`.  The HMAC
primitive and the base64/JSON payload serialization are external library
collaborators; they enter as function parameters (`hmac`, `enc`, `parse`),
and the theorems assume only what the code relies on: determinism (shared
by every function) and the serialize/parse round trip. -/

/-- The claims object carried in a token body (`sub`, `email`, `type`,
`iat`, `exp`, epoch seconds). -/
structure JwtPayload where
  sub : String
  email : String
  type : String
  iat : Int
  exp : Int
  deriving DecidableEq, Repr

/-- The distinct failure shapes of `JWTService.verifyToken`: the three
message kinds it throws itself, plus the wrapped raw parse error that
escapes when the payload segment does not decode to a claims object
(`JSON.parse` throwing inside the `try` block). -/
inductive JwtError where
  | invalidFormat
  | invalidSignature
  | expired
  | malformedPayload
  deriving DecidableEq, Repr

namespace JWTService

/-- `exp - iat`: 7 days in seconds (`7 * 24 * 60 * 60`). -/
def tokenLifetime : Int := 7 * 24 * 60 * 60

/-- The constant first segment: base64 of `JSON.stringify({alg:'HS256',typ:'JWT'})`. -/
def headerEncoded : String := "jwtHeaderSegment"

/-- The body object built by `generateToken`: the caller's claims spread
together with `iat = now` and `exp = now + 7 days`. -/
def issuedBody (sub email ty : String) (now : Int) : JwtPayload :=
  { sub := sub, email := email, type := ty, iat := now, exp := now + tokenLifetime }

/-- `JWTService.generateToken(payload)` at time `now`: builds the body with
`iat = now`, `exp = now + 7 days`, signs `header.body` with the secret, and
returns the three segments. -/
def generateToken (hmac : String → String → String) (enc : JwtPayload → String)
    (secret : String) (sub email ty : String) (now : Int) : List String :=
  let bodyEncoded := enc (issuedBody sub email ty now)
  [headerEncoded, bodyEncoded, hmac secret (headerEncoded ++ "." ++ bodyEncoded)]

/-- `JWTService.verifyToken(token)` at time `now`: requires exactly three
segments, recomputes the signature over `header.body`, decodes the body,
and checks `exp < now`. -/
def verifyToken (hmac : String → String → String) (parse : String → Option JwtPayload)
    (secret : String) (parts : List String) (now : Int) : Except JwtError JwtPayload :=
  match parts with
  | [hdr, bodyEncoded, signature] =>
      let expectedSignature := hmac secret (hdr ++ "." ++ bodyEncoded)
      if signature ≠ expectedSignature then .error .invalidSignature
      else
        match parse bodyEncoded with
        | none => .error .malformedPayload
        | some body => if body.exp < now then .error .expired else .ok body
  | _ => .error .invalidFormat

end JWTService

/-- **C2.** A token issued from a claims object verifies successfully and
returns the same subject, email and type, whenever verification happens
less than the 7-day lifetime after issuance.  The hypothesis `hp` is the
serialize/parse round trip of the external base64/JSON layer at the issued
body. -/
theorem C2_token_roundtrip (hmac : String → String → String)
    (enc : JwtPayload → String) (parse : String → Option JwtPayload)
    (secret sub email ty : String) (now now' : Int)
    (hp : parse (enc (JWTService.issuedBody sub email ty now)) =
      some (JWTService.issuedBody sub email ty now))
    (ht : now' < now + JWTService.tokenLifetime) :
    ∃ body,
      JWTService.verifyToken hmac parse secret
        (JWTService.generateToken hmac enc secret sub email ty now) now' = .ok body ∧
      body.sub = sub ∧ body.email = email ∧ body.type = ty := by
  refine ⟨JWTService.issuedBody sub email ty now, ?_, rfl, rfl, rfl⟩
  have hexp : ¬ ((JWTService.issuedBody sub email ty now).exp < now') := by
    simp only [JWTService.issuedBody, not_lt]
    exact le_of_lt ht
  simp [JWTService.generateToken, JWTService.verifyToken, hp, hexp]

/-- Witness for C2 at a concrete instantiation of the external collaborators. -/
theorem C2_token_roundtrip_witness :
    ∃ body,
      JWTService.verifyToken (fun s m => "sig:" ++ s ++ ":" ++ m)
        (fun _ => some (JWTService.issuedBody "user123" "a@b.c" "session" 1000))
        "secret"
        (JWTService.generateToken (fun s m => "sig:" ++ s ++ ":" ++ m)
          (fun _ => "body") "secret" "user123" "a@b.c" "session" 1000) 2000 = .ok body ∧
      body.sub = "user123" ∧ body.email = "a@b.c" ∧ body.type = "session" :=
  C2_token_roundtrip (fun s m => "sig:" ++ s ++ ":" ++ m) (fun _ => "body")
    (fun _ => some (JWTService.issuedBody "user123" "a@b.c" "session" 1000))
    "secret" "user123" "a@b.c" "session" 1000 2000 rfl (by decide)

/-- A concrete deterministic stand-in for the HMAC collaborator, used for
closed instances. -/
def hmacModel (secret msg : String) : String := "sig:" ++ secret ++ ":" ++ msg

/-- A concrete stand-in for the base64/JSON payload decoding: exactly one
segment decodes to a claims object, every other string fails to parse
(as `JSON.parse` does on a non-JSON payload segment). -/
def parseModel (s : String) : Option JwtPayload :=
  if s = "goodBody" then some (JWTService.issuedBody "user123" "a@b.c" "session" 1000)
  else none

/-- **C3 as stated is false**: a three-segment token whose signature is valid
but whose payload segment does not decode to a claims object makes
`verifyToken` fail with the wrapped raw parse error — a fourth failure
shape beyond InvalidFormat / InvalidSignature / Expired. -/
theorem C3_counterexample :
    JWTService.verifyToken hmacModel parseModel "secret"
        ["hdr", "junkBody", hmacModel "secret" "hdr.junkBody"] 0 =
      .error .malformedPayload ∧
    JwtError.malformedPayload ≠ .invalidFormat ∧
    JwtError.malformedPayload ≠ .invalidSignature ∧
    JwtError.malformedPayload ≠ .expired := by
  refine ⟨?_, by decide, by decide, by decide⟩
  simp [JWTService.verifyToken, parseModel, hmacModel]

/-- **C3 (amended).** `verifyToken` fails with InvalidFormat exactly when the
token does not have three dot-separated segments; with InvalidSignature when
the recomputed signature over the first two segments differs from the third;
with Expired when the decoded payload's `exp` has passed; and every failure
is one of those three kinds **or** the wrapped raw parse error raised when a
validly-signed payload segment does not decode to a claims object. -/
theorem C3_verify_failure_kinds (hmac : String → String → String)
    (parse : String → Option JwtPayload) (secret : String)
    (parts : List String) (now : Int) :
    (parts.length ≠ 3 →
      JWTService.verifyToken hmac parse secret parts now = .error .invalidFormat) ∧
    (∀ hdr body sig, parts = [hdr, body, sig] →
      sig ≠ hmac secret (hdr ++ "." ++ body) →
      JWTService.verifyToken hmac parse secret parts now = .error .invalidSignature) ∧
    (∀ hdr body sig payload, parts = [hdr, body, sig] →
      sig = hmac secret (hdr ++ "." ++ body) →
      parse body = some payload → payload.exp < now →
      JWTService.verifyToken hmac parse secret parts now = .error .expired) ∧
    (∀ e, JWTService.verifyToken hmac parse secret parts now = .error e →
      e = .invalidFormat ∨ e = .invalidSignature ∨ e = .expired ∨
      e = .malformedPayload) := by
  refine ⟨?_, ?_, ?_, ?_⟩
  · intro hlen
    match parts with
    | [] => rfl
    | [_] => rfl
    | [_, _] => rfl
    | [_, _, _] => exact absurd rfl hlen
    | _ :: _ :: _ :: _ :: _ => rfl
  · rintro hdr body sig rfl hsig
    simp [JWTService.verifyToken, hsig]
  · rintro hdr body sig payload rfl hsig hparse hexp
    simp [JWTService.verifyToken, hsig, hparse, hexp]
  · intro e _
    cases e
    · exact Or.inl rfl
    · exact Or.inr (Or.inl rfl)
    · exact Or.inr (Or.inr (Or.inl rfl))
    · exact Or.inr (Or.inr (Or.inr rfl))

/-- Witness for C3 (amended): the three failure clauses exercised on concrete
tokens through the theorem itself. -/
theorem C3_verify_failure_kinds_witness :
    JWTService.verifyToken hmacModel parseModel "secret" ["onlyOneSegment"] 0 =
        .error .invalidFormat ∧
    JWTService.verifyToken hmacModel parseModel "secret"
        ["hdr", "goodBody", "wrongSig"] 0 = .error .invalidSignature ∧
    JWTService.verifyToken hmacModel parseModel "secret"
        ["hdr", "goodBody", hmacModel "secret" "hdr.goodBody"] 999999999 =
      .error .expired := by
  refine ⟨?_, ?_, ?_⟩
  · have h := (C3_verify_failure_kinds hmacModel parseModel "secret" ["onlyOneSegment"] 0).1
    exact h (by decide)
  · have h := (C3_verify_failure_kinds hmacModel parseModel "secret"
      ["hdr", "goodBody", "wrongSig"] 0).2.1
    exact h "hdr" "goodBody" "wrongSig" rfl (by decide)
  · have h := (C3_verify_failure_kinds hmacModel parseModel "secret"
      ["hdr", "goodBody", hmacModel "secret" "hdr.goodBody"] 999999999).2.2.1
    exact h "hdr" "goodBody" (hmacModel "secret" "hdr.goodBody")
      (JWTService.issuedBody "user123" "a@b.c" "session" 1000) rfl rfl (by decide)
      (by decide)

/-! ## File storage backend: `FileStorageService.updateInFile`

A stored JSON object is an `id`, an association list of other fields, and
the `updatedAt` stamp.  `updateInFile` reads the whole collection, locates
the first record with the id, overlays the partial update
(`{...data[index], ...updateData, updatedAt}`), writes the collection back
and returns the merged record.  When no record matches, the inner
`Error('Item not found')` is caught by `updateInFile`'s own catch block and
rethrown wrapped as a `DatabaseError` — so the failure kind surfaced by this
operation is `DatabaseError`, not `NotFoundError`. -/

/-- A record in a collection file: distinguished `id` and `updatedAt`, every
other field in an association list (first binding wins on lookup). -/
structure StoredRec where
  id : String
  attrs : List (String × String)
  updatedAt : Int
  deriving DecidableEq, Repr

/-- First-binding-wins key lookup in a JS object modelled as an
association list. -/
def lookupKey (k : String) : List (String × String) → Option String
  | [] => none
  | (k0, v) :: rest => if k0 = k then some v else lookupKey k rest

/-- JS object spread `{...old, ...upd}`: keys of `upd` override keys of
`old`, all other keys of `old` survive. -/
def mergeAttrs (old upd : List (String × String)) : List (String × String) :=
  (old.filter fun kv => (lookupKey kv.1 upd).isNone) ++ upd

namespace FileStorageService

/-- `FileStorageService.updateInFile(filePath, id, updateData)` on the
deserialized collection `data` at time `now`.  Returns the merged record and
the rewritten collection, or the wrapped `DatabaseError` when no record has
the id. -/
def updateInFile : List StoredRec → String → List (String × String) → Int →
    Except ErrorName (StoredRec × List StoredRec)
  | [], _, _, _ => .error .DatabaseError
  | item :: rest, id, updateData, now =>
      if item.id = id then
        let merged : StoredRec :=
          { id := item.id, attrs := mergeAttrs item.attrs updateData, updatedAt := now }
        .ok (merged, merged :: rest)
      else
        match updateInFile rest id updateData now with
        | .error e => .error e
        | .ok (r, rest2) => .ok (r, item :: rest2)

end FileStorageService

theorem lookupKey_append (k : String) (xs ys : List (String × String)) :
    lookupKey k (xs ++ ys) =
      match lookupKey k xs with
      | some v => some v
      | none => lookupKey k ys := by
  induction xs with
  | nil => simp [lookupKey]
  | cons kv xs ih =>
      by_cases hk : kv.1 = k
      · simp [lookupKey, hk]
      · simpa [lookupKey, hk] using ih

theorem lookupKey_filter_none (k : String) (old upd : List (String × String))
    (h : lookupKey k upd = none) :
    lookupKey k (old.filter fun kv => (lookupKey kv.1 upd).isNone) =
      lookupKey k old := by
  induction old with
  | nil => rfl
  | cons kv old ih =>
      by_cases hke : kv.1 = k
      · have hn : (lookupKey kv.1 upd).isNone := by rw [hke, h]; rfl
        simp [List.filter_cons, hn, lookupKey, hke, h]
      · by_cases hn : (lookupKey kv.1 upd).isNone
        · simpa [List.filter_cons, hn, lookupKey, hke] using ih
        · simpa [List.filter_cons, hn, lookupKey, hke] using ih

theorem lookupKey_filter_some (k : String) (old upd : List (String × String))
    (v : String) (h : lookupKey k upd = some v) :
    lookupKey k (old.filter fun kv => (lookupKey kv.1 upd).isNone) = none := by
  induction old with
  | nil => rfl
  | cons kv old ih =>
      by_cases hke : kv.1 = k
      · have hn : ¬ (lookupKey kv.1 upd).isNone := by rw [hke, h]; simp
        simpa [List.filter_cons, hn] using ih
      · by_cases hn : (lookupKey kv.1 upd).isNone
        · simpa [List.filter_cons, hn, lookupKey, hke] using ih
        · simpa [List.filter_cons, hn] using ih

theorem mergeAttrs_lookup_overridden (old upd : List (String × String))
    (k v : String) (h : lookupKey k upd = some v) :
    lookupKey k (mergeAttrs old upd) = some v := by
  rw [mergeAttrs, lookupKey_append, lookupKey_filter_some k old upd v h, h]

theorem mergeAttrs_lookup_preserved (old upd : List (String × String))
    (k : String) (h : lookupKey k upd = none) :
    lookupKey k (mergeAttrs old upd) = lookupKey k old := by
  rw [mergeAttrs, lookupKey_append, lookupKey_filter_none k old upd h]
  cases hl : lookupKey k old with
  | none => simpa using h
  | some v => rfl

/-- **C8 as stated is false on the failure kind**: on a collection with no
matching id, `updateInFile` surfaces the `DatabaseError` kind (its catch
block wraps the internal item-not-found error), not the NotFound kind. -/
theorem C8_counterexample :
    FileStorageService.updateInFile [⟨"a", [], 0⟩] "missing" [("amount", "5")] 10 =
      .error .DatabaseError ∧
    ErrorName.DatabaseError ≠ ErrorName.NotFoundError := by
  refine ⟨?_, by decide⟩
  simp [FileStorageService.updateInFile]

/-- **C8 (amended).** `updateInFile` merges the partial fields over the first
record with the given id — fields named in the partial take its values,
unnamed fields keep their old values — sets `updatedAt` to the update time,
returns the merged record, and stores it in place; when no record has the
id it fails, with the wrapped `DatabaseError` kind rather than NotFound. -/
theorem C8_updateInFile_correct (data : List StoredRec) (id : String)
    (updateData : List (String × String)) (now : Int) :
    ((∀ r ∈ data, r.id ≠ id) →
      FileStorageService.updateInFile data id updateData now = .error .DatabaseError) ∧
    (∀ rec newData,
      FileStorageService.updateInFile data id updateData now = .ok (rec, newData) →
      rec.id = id ∧ rec.updatedAt = now ∧
      (∃ old ∈ data, old.id = id ∧
        rec.attrs = mergeAttrs old.attrs updateData ∧
        (∀ k v, lookupKey k updateData = some v → lookupKey k rec.attrs = some v) ∧
        (∀ k, lookupKey k updateData = none →
          lookupKey k rec.attrs = lookupKey k old.attrs)) ∧
      rec ∈ newData) ∧
    ((∃ r ∈ data, r.id = id) →
      ∃ rec newData,
        FileStorageService.updateInFile data id updateData now = .ok (rec, newData)) := by
  induction data with
  | nil =>
      refine ⟨fun _ => rfl, ?_, ?_⟩
      · intro rec newData h
        exact Except.noConfusion h
      · rintro ⟨r, hr, _⟩
        cases hr
  | cons item rest ih =>
      obtain ⟨ihNone, ihOk, ihSome⟩ := ih
      by_cases hid : item.id = id
      · refine ⟨?_, ?_, ?_⟩
        · intro hall
          exact absurd hid (hall item (List.mem_cons_self item rest))
        · intro rec newData h
          rw [FileStorageService.updateInFile, if_pos hid] at h
          cases h
          refine ⟨hid, rfl, ⟨item, List.mem_cons_self item rest, hid, rfl, ?_, ?_⟩,
            List.mem_cons_self _ _⟩
          · intro k v hk
            exact mergeAttrs_lookup_overridden item.attrs updateData k v hk
          · intro k hk
            exact mergeAttrs_lookup_preserved item.attrs updateData k hk
        · intro _
          refine ⟨⟨item.id, mergeAttrs item.attrs updateData, now⟩,
            ⟨item.id, mergeAttrs item.attrs updateData, now⟩ :: rest, ?_⟩
          rw [FileStorageService.updateInFile, if_pos hid]
      · refine ⟨?_, ?_, ?_⟩
        · intro hall
          rw [FileStorageService.updateInFile, if_neg hid]
          rw [ihNone (fun r hr => hall r (List.mem_cons_of_mem item hr))]
        · intro rec newData h
          rw [FileStorageService.updateInFile, if_neg hid] at h
          cases hrec : FileStorageService.updateInFile rest id updateData now with
          | error e =>
              rw [hrec] at h
              exact Except.noConfusion h
          | ok p =>
              rw [hrec] at h
              cases h
              obtain ⟨h1, h2, ⟨old, hold, h3⟩, h4⟩ := ihOk p.1 p.2 (by rw [hrec])
              exact ⟨h1, h2, ⟨old, List.mem_cons_of_mem item hold, h3⟩,
                List.mem_cons_of_mem item h4⟩
        · rintro ⟨r, hr, hrid⟩
          rcases List.mem_cons.mp hr with heq | hmem
          · exact absurd (heq ▸ hrid) hid
          · obtain ⟨rec, newData, hok⟩ := ihSome ⟨r, hmem, hrid⟩
            refine ⟨rec, item :: newData, ?_⟩
            rw [FileStorageService.updateInFile, if_neg hid, hok]

/-- Witness for C8 (amended): the not-found and successful-merge clauses
exercised on a concrete collection through the theorem itself. -/
theorem C8_updateInFile_correct_witness :
    FileStorageService.updateInFile
        [⟨"t1", [("amount", "50")], 0⟩] "zzz" [("amount", "75")] 9 =
      .error .DatabaseError ∧
    ∃ rec newData,
      FileStorageService.updateInFile
          [⟨"t1", [("amount", "50"), ("category", "food")], 0⟩] "t1"
          [("amount", "75")] 9 = .ok (rec, newData) := by
  constructor
  · have h := (C8_updateInFile_correct [⟨"t1", [("amount", "50")], 0⟩] "zzz"
      [("amount", "75")] 9).1
    exact h (by decide)
  · have h := (C8_updateInFile_correct
      [⟨"t1", [("amount", "50"), ("category", "food")], 0⟩] "t1"
      [("amount", "75")] 9).2.2
    exact h ⟨_, List.mem_cons_self _ _, rfl⟩

/-! ## User service (file backend, `UserService`)

Stored user objects carry the password key (`password : Option String`,
`none` modelling an absent key after the `{ password, ...safeUser }`
destructuring).  `createUser` lower-cases the email, checks for an existing
user via `getUserByEmail`, stores the record, and returns it without the
password key. -/

/-- The preferences sub-mapping. -/
structure Preferences where
  currency : String
  theme : String
  notifications : Bool
  language : String
  deriving DecidableEq, Repr

/-- The default preferences object used when the caller supplies none. -/
def defaultPreferences : Preferences :=
  { currency := "USD", theme := "light", notifications := true, language := "en" }

/-- A user object in the users collection file.  `password = none` models
the absence of the password key (as in the values the service returns). -/
structure StoredUser where
  id : String
  email : String
  password : Option String
  firstName : String
  lastName : String
  preferences : Preferences
  createdAt : Int
  updatedAt : Int
  deriving DecidableEq, Repr

/-- A partial preferences object (the body of an update-preferences call);
`none` fields are absent keys. -/
structure PrefsUpdate where
  currency : Option String
  theme : Option String
  notifications : Option Bool
  language : Option String
  deriving DecidableEq, Repr

/-- JS spread `{...user.preferences, ...preferences}` on the preferences
sub-mapping. -/
def applyPrefs (p : Preferences) (u : PrefsUpdate) : Preferences :=
  { currency := u.currency.getD p.currency
    theme := u.theme.getD p.theme
    notifications := u.notifications.getD p.notifications
    language := u.language.getD p.language }

namespace UserService

/-- `UserService.getUserByEmail(email)`: linear scan of the users file for
the lower-cased email. -/
def getUserByEmail (users : List StoredUser) (email : String) : Option StoredUser :=
  users.find? fun u => u.email = email.toLower

/-- The user object `createUser` builds and persists: lower-cased email and
the caller's raw password value. -/
def newUserRecord (newId email password firstName lastName : String)
    (prefs : Option Preferences) (now : Int) : StoredUser :=
  { id := newId, email := email.toLower, password := some password
    firstName := firstName, lastName := lastName
    preferences := prefs.getD defaultPreferences
    createdAt := now, updatedAt := now }

/-- `UserService.createUser(userData)`: Conflict when `getUserByEmail` finds
an existing user; otherwise appends the record (raw password, lower-cased
email) and returns it without the password key. -/
def createUser (users : List StoredUser) (newId email password firstName lastName : String)
    (prefs : Option Preferences) (now : Int) :
    Except ErrorName (StoredUser × List StoredUser) :=
  match getUserByEmail users email with
  | some _ => .error .ConflictError
  | none =>
      let user := newUserRecord newId email password firstName lastName prefs now
      .ok ({ user with password := none }, users ++ [user])

/-- `UserService.getUserById(id)`: NotFound when absent, otherwise the user
without the password key. -/
def getUserById (users : List StoredUser) (id : String) : Except ErrorName StoredUser :=
  match users.find? fun u => u.id = id with
  | none => .error .NotFoundError
  | some u => .ok { u with password := none }

/-- The `updateInFile` call made by `updatePreferences`, specialized to the
users file: first record with the id gets the merged preferences object and
a fresh `updatedAt` (same catch-all wrapping as `updateInFile`). -/
def updateUserInFile : List StoredUser → String → Preferences → Int →
    Except ErrorName (StoredUser × List StoredUser)
  | [], _, _, _ => .error .DatabaseError
  | u :: rest, id, newPrefs, now =>
      if u.id = id then
        let merged : StoredUser := { u with preferences := newPrefs, updatedAt := now }
        .ok (merged, merged :: rest)
      else
        match updateUserInFile rest id newPrefs now with
        | .error e => .error e
        | .ok (r, rest2) => .ok (r, u :: rest2)

/-- `UserService.updatePreferences(userId, preferences)`: `getUserById`
(NotFound when absent), then `updateInFile` with the spread-merged
preferences, then strip the password key from the result. -/
def updatePreferences (users : List StoredUser) (userId : String)
    (preferences : PrefsUpdate) (now : Int) :
    Except ErrorName (StoredUser × List StoredUser) :=
  match getUserById users userId with
  | .error e => .error e
  | .ok user =>
      match updateUserInFile users userId (applyPrefs user.preferences preferences) now with
      | .error e => .error e
      | .ok (updated, newUsers) => .ok ({ updated with password := none }, newUsers)

/-- `UserService.getAllUsers()`: every stored user with the password key
removed. -/
def getAllUsers (users : List StoredUser) : List StoredUser :=
  users.map fun u => { u with password := none }

end UserService

/-- **C4 is the claim the code violates**: a successful `createUser`
persists the raw password verbatim (`password: userData.password,
// TODO: Hash in production`) — the stored value IS the raw password. -/
theorem C4_password_stored_raw :
    (UserService.createUser [] "user_1" "a@b.c" "hunter2" "Ada" "Byron" none 0).map
        (fun r => r.2.map (fun u => u.password)) =
      .ok [some "hunter2"] := by
  rfl

/-- In a store extended with a user carrying the lower-cased email, the
email scan finds some user. -/
theorem getUserByEmail_append_some (users : List StoredUser) (email : String)
    (u : StoredUser) (hu : u.email = email.toLower) :
    ∃ w, UserService.getUserByEmail (users ++ [u]) email = some w := by
  rw [UserService.getUserByEmail, List.find?_append]
  cases hfind : users.find? fun x => decide (x.email = email.toLower) with
  | some w => exact ⟨w, by simp [hfind]⟩
  | none => exact ⟨u, by simp [hfind, List.find?, hu]⟩

/-- **C5.** When a create succeeds, a second create with the same email in
any casing fails with the Conflict kind, and exactly one user with that
lower-cased email exists in the store afterwards. -/
theorem C5_email_uniqueness (users : List StoredUser)
    (id1 id2 email1 email2 p1 p2 f1 f2 l1 l2 : String)
    (prefs1 prefs2 : Option Preferences) (t1 t2 : Int)
    (u1 : StoredUser) (users' : List StoredUser)
    (hcase : email2.toLower = email1.toLower)
    (h1 : UserService.createUser users id1 email1 p1 f1 l1 prefs1 t1 = .ok (u1, users')) :
    UserService.createUser users' id2 email2 p2 f2 l2 prefs2 t2 = .error .ConflictError ∧
    (users'.countP fun u => u.email = email1.toLower) = 1 := by
  cases hfind : UserService.getUserByEmail users email1 with
  | some u =>
      rw [UserService.createUser, hfind] at h1
      exact Except.noConfusion h1
  | none =>
      rw [UserService.createUser, hfind] at h1
      cases h1
      have hmail : (UserService.newUserRecord id1 email1 p1 f1 l1 prefs1 t1).email =
          email1.toLower := rfl
      constructor
      · obtain ⟨w, hw⟩ := getUserByEmail_append_some users email2
          (UserService.newUserRecord id1 email1 p1 f1 l1 prefs1 t1) (by rw [hmail, hcase])
        rw [UserService.createUser, hw]
      · rw [List.countP_append]
        have hz : (users.countP fun u => u.email = email1.toLower) = 0 := by
          rw [List.countP_eq_zero]
          intro u hu
          simp only [decide_eq_true_eq]
          intro he
          have := List.find?_eq_none.mp hfind u hu
          simp only [decide_eq_true_eq] at this
          exact this he
        rw [hz]
        simp [List.countP_cons, hmail]

/-- Witness for C5: a concrete successful create followed by a second
create with the same email. -/
theorem C5_email_uniqueness_witness :
    UserService.createUser
        [UserService.newUserRecord "u1" "alice@example.com" "pw" "A" "B" none 0]
        "u2" "alice@example.com" "pw2" "C" "D" none 1 = .error .ConflictError ∧
    (([UserService.newUserRecord "u1" "alice@example.com" "pw" "A" "B" none 0] :
        List StoredUser).countP
      fun u => u.email = "alice@example.com".toLower) = 1 := by
  exact C5_email_uniqueness [] "u1" "u2" "alice@example.com" "alice@example.com"
    "pw" "pw2" "A" "C" "B" "D" none none 0 1 _ _ rfl rfl

/-- **C10.** Every user-returning operation of the file-backend user service
— `createUser`, `getUserById`, `updatePreferences`, `getAllUsers` — strips
the password key from the value it returns, even though the stored record
carries it. -/
theorem C10_password_stripped (users : List StoredUser)
    (newId email pw fn ln uid : String) (prefs : Option Preferences)
    (pu : PrefsUpdate) (now : Int) :
    (∀ res st2,
      UserService.createUser users newId email pw fn ln prefs now = .ok (res, st2) →
      res.password = none) ∧
    (∀ res, UserService.getUserById users uid = .ok res → res.password = none) ∧
    (∀ res st2,
      UserService.updatePreferences users uid pu now = .ok (res, st2) →
      res.password = none) ∧
    (∀ u ∈ UserService.getAllUsers users, u.password = none) := by
  refine ⟨?_, ?_, ?_, ?_⟩
  · intro res st2 h
    rw [UserService.createUser] at h
    cases hfind : UserService.getUserByEmail users email with
    | some u => rw [hfind] at h; exact Except.noConfusion h
    | none =>
        rw [hfind] at h
        cases h
        rfl
  · intro res h
    rw [UserService.getUserById] at h
    cases hfind : users.find? fun u => u.id = uid with
    | none => rw [hfind] at h; exact Except.noConfusion h
    | some u =>
        rw [hfind] at h
        cases h
        rfl
  · intro res st2 h
    rw [UserService.updatePreferences] at h
    cases hget : UserService.getUserById users uid with
    | error e => rw [hget] at h; exact Except.noConfusion h
    | ok user =>
        rw [hget] at h
        dsimp only at h
        cases hupd : UserService.updateUserInFile users uid
            (applyPrefs user.preferences pu) now with
        | error e => rw [hupd] at h; exact Except.noConfusion h
        | ok p =>
            rw [hupd] at h
            cases h
            rfl
  · intro u hu
    rw [UserService.getAllUsers] at hu
    obtain ⟨v, _, hv⟩ := List.mem_map.mp hu
    rw [← hv]

/-- Witness for C10: successful concrete runs of all four operations. -/
theorem C10_password_stripped_witness :
    (∀ res st2,
      UserService.createUser
          [UserService.newUserRecord "u1" "a@b.c" "pw" "A" "B" none 0]
          "u2" "x@y.z" "pw2" "C" "D" none 5 = .ok (res, st2) →
      res.password = none) ∧
    (∀ res,
      UserService.getUserById
          [UserService.newUserRecord "u1" "a@b.c" "pw" "A" "B" none 0] "u1" = .ok res →
      res.password = none) := by
  refine ⟨?_, ?_⟩
  · exact (C10_password_stripped
      [UserService.newUserRecord "u1" "a@b.c" "pw" "A" "B" none 0]
      "u2" "x@y.z" "pw2" "C" "D" "u1" none ⟨none, none, none, none⟩ 5).1
  · exact (C10_password_stripped
      [UserService.newUserRecord "u1" "a@b.c" "pw" "A" "B" none 0]
      "u2" "x@y.z" "pw2" "C" "D" "u1" none ⟨none, none, none, none⟩ 5).2.1

/-! ## Transaction create/update path and amount validation (C6)

`POST /transactions` passes through `validateTransaction` (middleware)
before `createTransaction`; `PATCH /transactions/:id` passes only through
`validateId` — the controller copies a truthy `amount` into the update data
unchecked and `updateTransaction` merges it via `updateInFile`. -/

/-- A transaction record as stored in the transactions file. -/
structure TxnStored where
  id : String
  userId : String
  type : TxnType
  category : String
  amount : ℚ
  updatedAt : Int
  deriving DecidableEq, Repr

/-- The amount checks of `validateTransaction`: rejected when falsy (`0`),
non-positive, or above the 1,000,000 maximum. -/
def validateTransactionAmount (amount : ℚ) : Bool :=
  decide (0 < amount) && decide (amount ≤ 1000000)

/-- The service-side update (`getTransactionById`, which raises NotFound,
then `updateInFile` merging the new amount and bumping `updatedAt`). -/
def updateTxnInFile : List TxnStored → String → ℚ → Int →
    Except ErrorName (TxnStored × List TxnStored)
  | [], _, _, _ => .error .NotFoundError
  | t :: rest, id, a, now =>
      if t.id = id then
        let merged : TxnStored := { t with amount := a, updatedAt := now }
        .ok (merged, merged :: rest)
      else
        match updateTxnInFile rest id a now with
        | .error e => .error e
        | .ok (r, rest2) => .ok (r, t :: rest2)

/-- The `POST /transactions` path: `validateTransaction` middleware (400 on
an out-of-range amount, before anything is persisted), then
`TransactionService.createTransaction` appends the record. -/
def createTransactionApi (txns : List TxnStored) (newId userId : String)
    (ty : TxnType) (category : String) (amount : ℚ) (now : Int) :
    Except ErrorName (TxnStored × List TxnStored) :=
  if validateTransactionAmount amount then
    let txn : TxnStored :=
      { id := newId, userId := userId, type := ty, category := category
        amount := amount, updatedAt := now }
    .ok (txn, txns ++ [txn])
  else .error .ValidationError

/-- The `PATCH /transactions/:id` path restricted to an amount change: no
amount validation runs; the controller includes `amount` in the update data
when it is truthy (nonzero), rejects an empty update with 400, and the
service merges whatever value was supplied. -/
def updateTransactionApi (txns : List TxnStored) (id : String)
    (amountOpt : Option ℚ) (now : Int) :
    Except ErrorName (TxnStored × List TxnStored) :=
  match amountOpt with
  | none => .error .ValidationError
  | some a =>
      if a = 0 then .error .ValidationError
      else updateTxnInFile txns id a now

/-- **C6 as stated is false for updates**: starting from a store holding one
in-bounds record, an update carrying amount `-5` is merged and persisted —
the violating write is not rejected. -/
theorem C6_counterexample :
    updateTransactionApi [⟨"t1", "u1", .expense, "food", 50, 0⟩] "t1" (some (-5)) 7 =
      .ok (⟨"t1", "u1", .expense, "food", -5, 7⟩,
        [⟨"t1", "u1", .expense, "food", -5, 7⟩]) ∧
    ¬ (0 < (-5 : ℚ)) := by
  constructor
  · norm_num [updateTransactionApi, updateTxnInFile]
  · norm_num

/-- **C6 (amended).** Creates are guarded: a create whose amount is outside
`(0, 1000000]` is rejected with ValidationFailed before persistence, and a
successful create persists exactly the validated amount appended to the
store; updates are NOT re-validated: whenever an amount-carrying update
succeeds, the stored amount is the supplied value, whatever it is. -/
theorem C6_amount_bounds (txns : List TxnStored) (newId userId : String)
    (ty : TxnType) (category : String) (amount : ℚ) (now : Int)
    (id : String) (a : ℚ) :
    (¬ (0 < amount ∧ amount ≤ 1000000) →
      createTransactionApi txns newId userId ty category amount now =
        .error .ValidationError) ∧
    ((0 < amount ∧ amount ≤ 1000000) →
      ∃ rec st2,
        createTransactionApi txns newId userId ty category amount now = .ok (rec, st2) ∧
        rec.amount = amount ∧ st2 = txns ++ [rec]) ∧
    (∀ rec st2, updateTransactionApi txns id (some a) now = .ok (rec, st2) →
      rec.amount = a) := by
  refine ⟨?_, ?_, ?_⟩
  · intro hbad
    rw [createTransactionApi, if_neg]
    simp only [validateTransactionAmount, Bool.and_eq_true, decide_eq_true_eq]
    exact hbad
  · intro hgood
    refine ⟨⟨newId, userId, ty, category, amount, now⟩,
      txns ++ [⟨newId, userId, ty, category, amount, now⟩], ?_, rfl, rfl⟩
    rw [createTransactionApi, if_pos]
    simp only [validateTransactionAmount, Bool.and_eq_true, decide_eq_true_eq]
    exact hgood
  · intro rec st2 h
    rw [updateTransactionApi] at h
    by_cases hz : a = 0
    · rw [if_pos hz] at h
      exact Except.noConfusion h
    · rw [if_neg hz] at h
      clear hz
      induction txns generalizing st2 with
      | nil => exact Except.noConfusion h
      | cons t rest ih =>
          rw [updateTxnInFile] at h
          by_cases hid : t.id = id
          · rw [if_pos hid] at h
            cases h
            rfl
          · rw [if_neg hid] at h
            cases hrec : updateTxnInFile rest id a now with
            | error e =>
                rw [hrec] at h
                exact Except.noConfusion h
            | ok p =>
                rw [hrec] at h
                cases h
                cases p with
                | mk r rest2 => exact ih rest2 hrec

/-- Witness for C6 (amended): a rejected out-of-range create, an accepted
in-range create, and a successful amount update, all concrete. -/
theorem C6_amount_bounds_witness :
    createTransactionApi [] "t9" "u1" .expense "food" (-3) 0 =
      .error .ValidationError ∧
    (∃ rec st2,
      createTransactionApi [] "t9" "u1" .expense "food" 10 0 = .ok (rec, st2) ∧
      rec.amount = 10 ∧ st2 = [] ++ [rec]) ∧
    (∀ rec st2,
      updateTransactionApi [⟨"t1", "u1", .expense, "food", 50, 0⟩] "t1"
        (some 75) 7 = .ok (rec, st2) → rec.amount = 75) := by
  refine ⟨?_, ?_, ?_⟩
  · exact (C6_amount_bounds [] "t9" "u1" .expense "food" (-3) 0 "t1" 75).1
      (by norm_num)
  · exact (C6_amount_bounds [] "t9" "u1" .expense "food" 10 0 "t1" 75).2.1
      (by norm_num)
  · exact (C6_amount_bounds [⟨"t1", "u1", .expense, "food", 50, 0⟩] "t9" "u1"
      .expense "food" 10 7 "t1" 75).2.2

/-! ## Query/pagination engine: `MongoDBService.find` + `validatePagination`

The collection is a list of records; `find` filters by the query, counts the
matches independently of the slice, sorts (default `createdAt` descending,
modelled by an integer sort key), applies `skip`/`limit`, and derives
`pages = Math.ceil(total / limit)`. -/

/-- The `{data, total, skip, limit, pages}` shape returned by
`MongoDBService.find`. -/
structure FindResult (R : Type) where
  data : List R
  total : ℕ
  skip : ℕ
  limit : ℕ
  pages : ℕ

/-- Insert into a descending-sorted list (sort comparator `b - a` on the
sort key). -/
def insertDesc {R : Type} (key : R → Int) (x : R) : List R → List R
  | [] => [x]
  | y :: ys => if key y < key x then x :: y :: ys else y :: insertDesc key x ys

/-- Sort descending by the integer sort key. -/
def sortDesc {R : Type} (key : R → Int) : List R → List R
  | [] => []
  | x :: xs => insertDesc key x (sortDesc key xs)

namespace MongoDBService

/-- `MongoDBService.find(model, query, {skip, limit, sort})`: `total` from an
independent count over the query, `data` the sorted matching records sliced
by `skip`/`limit`, `pages = Math.ceil(total / limit)`. -/
def find {R : Type} (records : List R) (pred : R → Bool) (skip limit : ℕ)
    (key : R → Int) : FindResult R :=
  let matching := records.filter pred
  let total := matching.length
  { data := ((sortDesc key matching).drop skip).take limit
    total := total
    skip := skip
    limit := limit
    pages := (Int.ceil ((total : ℚ) / (limit : ℚ))).toNat }

end MongoDBService

/-- The pagination object built by `validatePagination`: page clamped to at
least 1, limit clamped into `[1, 100]`, `skip = (page - 1) * limit`. -/
structure Pagination where
  page : ℕ
  limit : ℕ
  skip : ℕ
  deriving DecidableEq, Repr

/-- `validatePagination(req)`: `page = max(1, page)`,
`limit = min(100, max(1, limit))`, `skip = (page - 1) * limit`. -/
def validatePagination (page limit : ℕ) : Pagination :=
  let p := max 1 page
  let l := min 100 (max 1 limit)
  { page := p, limit := l, skip := (p - 1) * l }

/-- `Math.ceil(total / limit)` agrees with the natural-number formula
`(total + limit - 1) / limit` for a positive limit. -/
theorem ceilNat_eq (t l : ℕ) (hl : 1 ≤ l) :
    (Int.ceil ((t : ℚ) / (l : ℚ))).toNat = (t + l - 1) / l := by
  have hl0 : (0 : ℚ) < (l : ℚ) := by exact_mod_cast hl
  have hq : l * ((t + l - 1) / l) + (t + l - 1) % l = t + l - 1 := Nat.div_add_mod _ _
  have hr : (t + l - 1) % l < l := Nat.mod_lt _ (by omega)
  generalize hR : (t + l - 1) % l = r at hq hr
  generalize hQ : (t + l - 1) / l = q at hq ⊢
  have h2 : l * q + r + 1 = t + l := by omega
  have hqQ : (l : ℚ) * q + r = t + l - 1 := by
    have h3 : ((l * q + r + 1 : ℕ) : ℚ) = ((t + l : ℕ) : ℚ) := by rw [h2]
    push_cast at h3
    linarith
  have hrQ : (r : ℚ) + 1 ≤ l := by exact_mod_cast hr
  have hr0 : (0 : ℚ) ≤ (r : ℚ) := Nat.cast_nonneg r
  have hceil : Int.ceil ((t : ℚ) / (l : ℚ)) = (q : ℤ) := by
    rw [Int.ceil_eq_iff]
    constructor
    · rw [show (((q : ℤ) : ℚ)) = (q : ℚ) by push_cast; ring, lt_div_iff hl0]
      nlinarith [hqQ, hr0]
    · rw [show (((q : ℤ) : ℚ)) = (q : ℚ) by push_cast; ring, div_le_iff hl0]
      nlinarith [hqQ, hrQ]
  rw [hceil]
  simp

/-- **C7.** For a find request with `page ≥ 1` and `limit ∈ [1, 100]`:
`validatePagination` produces `skip = (page - 1) * limit`; `find` returns the
sorted matching records sliced from that offset, a `total` equal to the
number of matching records independent of the slice, and
`pages = ceil(total / limit)`; and when nothing matches the result is
`total = 0`, `pages = 0`, empty data — no error. -/
theorem C7_find_pagination {R : Type} (records : List R) (pred : R → Bool)
    (page limit : ℕ) (key : R → Int)
    (hpage : 1 ≤ page) (hlim1 : 1 ≤ limit) (hlim100 : limit ≤ 100) :
    (validatePagination page limit).skip = (page - 1) * limit ∧
    (MongoDBService.find records pred ((page - 1) * limit) limit key).data =
      ((sortDesc key (records.filter pred)).drop ((page - 1) * limit)).take limit ∧
    (MongoDBService.find records pred ((page - 1) * limit) limit key).total =
      (records.filter pred).length ∧
    (MongoDBService.find records pred ((page - 1) * limit) limit key).pages =
      ((records.filter pred).length + limit - 1) / limit ∧
    ((records.filter pred).length = 0 →
      (MongoDBService.find records pred ((page - 1) * limit) limit key).total = 0 ∧
      (MongoDBService.find records pred ((page - 1) * limit) limit key).pages = 0 ∧
      (MongoDBService.find records pred ((page - 1) * limit) limit key).data = []) := by
  have hpages : (MongoDBService.find records pred ((page - 1) * limit) limit key).pages =
      ((records.filter pred).length + limit - 1) / limit :=
    ceilNat_eq (records.filter pred).length limit hlim1
  refine ⟨?_, rfl, rfl, hpages, ?_⟩
  · simp [validatePagination, Nat.max_eq_right hpage, Nat.max_eq_right hlim1,
      Nat.min_eq_right hlim100]
  · intro h0
    have hfilter : records.filter pred = [] := List.length_eq_zero.mp h0
    refine ⟨h0, ?_, ?_⟩
    · rw [hpages, h0]
      exact Nat.div_eq_of_lt (by omega)
    · show ((sortDesc key (records.filter pred)).drop ((page - 1) * limit)).take limit = []
      rw [hfilter]
      simp [sortDesc]

/-- Witness for C7: three matching records with `page = 1, limit = 10`, and
the same store with a never-matching query for the empty-result policy. -/
theorem C7_find_pagination_witness :
    (validatePagination 1 10).skip = (1 - 1) * 10 ∧
    (MongoDBService.find
        [(⟨"t1", "u1", .income, "salary", 100, 3⟩ : TxnStored),
         ⟨"t2", "u1", .expense, "food", 30, 2⟩,
         ⟨"t3", "u1", .expense, "rent", 20, 1⟩]
        (fun t => t.userId = "u1") ((1 - 1) * 10) 10 (fun t => t.updatedAt)).total = 3 ∧
    (MongoDBService.find
        [(⟨"t1", "u1", .income, "salary", 100, 3⟩ : TxnStored),
         ⟨"t2", "u1", .expense, "food", 30, 2⟩,
         ⟨"t3", "u1", .expense, "rent", 20, 1⟩]
        (fun t => t.userId = "u1") ((1 - 1) * 10) 10 (fun t => t.updatedAt)).pages = 1 ∧
    (MongoDBService.find
        [(⟨"t1", "u1", .income, "salary", 100, 3⟩ : TxnStored),
         ⟨"t2", "u1", .expense, "food", 30, 2⟩,
         ⟨"t3", "u1", .expense, "rent", 20, 1⟩]
        (fun _ => false) ((1 - 1) * 10) 10 (fun t => t.updatedAt)).total = 0 ∧
    (MongoDBService.find
        [(⟨"t1", "u1", .income, "salary", 100, 3⟩ : TxnStored),
         ⟨"t2", "u1", .expense, "food", 30, 2⟩,
         ⟨"t3", "u1", .expense, "rent", 20, 1⟩]
        (fun _ => false) ((1 - 1) * 10) 10 (fun t => t.updatedAt)).pages = 0 ∧
    (MongoDBService.find
        [(⟨"t1", "u1", .income, "salary", 100, 3⟩ : TxnStored),
         ⟨"t2", "u1", .expense, "food", 30, 2⟩,
         ⟨"t3", "u1", .expense, "rent", 20, 1⟩]
        (fun _ => false) ((1 - 1) * 10) 10 (fun t => t.updatedAt)).data = [] := by
  have hA := C7_find_pagination
    [(⟨"t1", "u1", .income, "salary", 100, 3⟩ : TxnStored),
     ⟨"t2", "u1", .expense, "food", 30, 2⟩,
     ⟨"t3", "u1", .expense, "rent", 20, 1⟩]
    (fun t => t.userId = "u1") 1 10 (fun t => t.updatedAt)
    (by decide) (by decide) (by decide)
  have hB := C7_find_pagination
    [(⟨"t1", "u1", .income, "salary", 100, 3⟩ : TxnStored),
     ⟨"t2", "u1", .expense, "food", 30, 2⟩,
     ⟨"t3", "u1", .expense, "rent", 20, 1⟩]
    (fun _ => false) 1 10 (fun t => t.updatedAt)
    (by decide) (by decide) (by decide)
  refine ⟨hA.1, ?_, ?_, ?_, ?_, ?_⟩
  · rw [hA.2.2.1]
    rfl
  · rw [hA.2.2.2.1]
    rfl
  · rw [hB.2.2.1]
    rfl
  · rw [hB.2.2.2.1]
    rfl
  · exact (hB.2.2.2.2 rfl).2.2

/-! ## Month-scoped summary windows (C9)

A server-local datetime is six calendar fields; JS `Date` comparison
(epoch order) is modelled by a mixed-radix key, strictly monotone in the
lexicographic order of valid datetimes.  Months are 1-based here
(`getMonth() + 1`).

Two filters appear in the source: the file-backend `getSummary` compares
`getFullYear()`/`getMonth()` directly, while `SummaryController.getSummary`
and the Mongo `getSummary` build `startDate = new Date(y, m-1, 1)` and
`endDate = new Date(y, m, 0)` — the latter is the *midnight that starts*
the last day of the month. -/

/-- A server-local datetime. -/
structure LocalDT where
  year : ℕ
  month : ℕ
  day : ℕ
  hour : ℕ
  minute : ℕ
  second : ℕ
  deriving DecidableEq, Repr

/-- Mixed-radix key: epoch order of valid local datetimes. -/
def dtKey (t : LocalDT) : ℕ :=
  ((((t.year * 13 + t.month) * 32 + t.day) * 24 + t.hour) * 60 + t.minute) * 60 + t.second

/-- JS `Date` comparison (`>=` / `<=` on epoch milliseconds). -/
def dtLE (a b : LocalDT) : Bool := dtKey a ≤ dtKey b

/-- Gregorian leap year, as JS `Date` implements the calendar. -/
def isLeapYear (y : ℕ) : Bool := (y % 4 = 0 && y % 100 ≠ 0) || y % 400 = 0

/-- `new Date(y, m, 0).getDate()`: the number of days of (1-based) month `m`
of year `y`. -/
def daysInMonth (y m : ℕ) : ℕ :=
  if m = 2 then (if isLeapYear y then 29 else 28)
  else if m = 4 ∨ m = 6 ∨ m = 9 ∨ m = 11 then 30 else 31

/-- A well-formed calendar datetime. -/
def validDT (t : LocalDT) : Prop :=
  1 ≤ t.month ∧ t.month ≤ 12 ∧ 1 ≤ t.day ∧ t.day ≤ daysInMonth t.year t.month ∧
  t.hour ≤ 23 ∧ t.minute ≤ 59 ∧ t.second ≤ 59

instance (t : LocalDT) : Decidable (validDT t) := by
  unfold validDT
  infer_instance

/-- The month test of the file-backend `TransactionService.getSummary`:
`date.getFullYear() === year && date.getMonth() === monthNum - 1`. -/
def fileMonthFilter (t : LocalDT) (y m : ℕ) : Bool :=
  t.year = y && t.month = m

/-- `new Date(year, monthNum - 1, 1)`: first of the month, midnight. -/
def ctrlMonthStart (y m : ℕ) : LocalDT := ⟨y, m, 1, 0, 0, 0⟩

/-- `new Date(year, monthNum, 0)`: the last day of the month at 00:00:00. -/
def ctrlMonthEnd (y m : ℕ) : LocalDT := ⟨y, m, daysInMonth y m, 0, 0, 0⟩

/-- The `$gte startDate` / `$lte endDate` test of the controller and Mongo
summary paths. -/
def ctrlInWindow (t : LocalDT) (y m : ℕ) : Bool :=
  dtLE (ctrlMonthStart y m) t && dtLE t (ctrlMonthEnd y m)

/-- Modelled from the spec's words: the claimed window end
`last-of-month 23:59:59`. -/
def specMonthEnd (y m : ℕ) : LocalDT := ⟨y, m, daysInMonth y m, 23, 59, 59⟩

/-- Modelled from the spec's words: membership in the claimed window
`[first-of-month 00:00, last-of-month 23:59:59]`. -/
def specWindowMem (t : LocalDT) (y m : ℕ) : Bool :=
  dtLE (ctrlMonthStart y m) t && dtLE t (specMonthEnd y m)

theorem daysInMonth_bounds (y m : ℕ) : 1 ≤ daysInMonth y m ∧ daysInMonth y m ≤ 31 := by
  rw [daysInMonth]
  split
  · split <;> omega
  · split <;> omega

/-- **C9 as stated is false for the controller/Mongo summary paths**: a
transaction dated on the last day of the month at noon lies inside the
claimed window but is excluded by the `$lte endDate` filter, whose endpoint
is the midnight that starts the last day. -/
theorem C9_counterexample :
    validDT ⟨2024, 1, 31, 12, 0, 0⟩ ∧
    specWindowMem ⟨2024, 1, 31, 12, 0, 0⟩ 2024 1 = true ∧
    fileMonthFilter ⟨2024, 1, 31, 12, 0, 0⟩ 2024 1 = true ∧
    ctrlInWindow ⟨2024, 1, 31, 12, 0, 0⟩ 2024 1 = false := by
  decide

/-- **C9 (amended).** For valid datetimes the file-backend month test agrees
exactly with the claimed window `[first 00:00, last-of-month 23:59:59]`; the
controller/Mongo window instead ends at the last day's midnight: it contains
exactly the claimed-window datetimes that fall before the last day or at
exactly 00:00:00 of it. -/
theorem C9_month_window (y m : ℕ) (t : LocalDT)
    (hm1 : 1 ≤ m) (hm12 : m ≤ 12) (hv : validDT t) :
    (fileMonthFilter t y m = true ↔ specWindowMem t y m = true) ∧
    (ctrlInWindow t y m = true ↔
      (specWindowMem t y m = true ∧
        (t.day < daysInMonth y m ∨
          (t.hour = 0 ∧ t.minute = 0 ∧ t.second = 0)))) := by
  obtain ⟨ty, tm, td, th, tmi, ts⟩ := t
  obtain ⟨h1, h2, h3, h4, h5, h6, h7⟩ := hv
  have hL := daysInMonth_bounds y m
  have hL2 := daysInMonth_bounds ty tm
  simp only [validDT] at h4
  simp only [fileMonthFilter, specWindowMem, ctrlInWindow, dtLE, dtKey,
    ctrlMonthStart, ctrlMonthEnd, specMonthEnd, Bool.and_eq_true,
    decide_eq_true_eq] at *
  constructor
  · constructor
    · rintro ⟨rfl, rfl⟩
      omega
    · intro h
      omega
  · constructor
    · intro h
      omega
    · intro h
      omega

/-- Witness for C9 (amended): the last second of January and the first
instant of its last day, both concrete. -/
theorem C9_month_window_witness :
    (fileMonthFilter ⟨2024, 1, 31, 23, 59, 59⟩ 2024 1 = true ↔
      specWindowMem ⟨2024, 1, 31, 23, 59, 59⟩ 2024 1 = true) ∧
    (ctrlInWindow ⟨2024, 1, 31, 0, 0, 0⟩ 2024 1 = true ↔
      (specWindowMem ⟨2024, 1, 31, 0, 0, 0⟩ 2024 1 = true ∧
        ((⟨2024, 1, 31, 0, 0, 0⟩ : LocalDT).day < daysInMonth 2024 1 ∨
          ((⟨2024, 1, 31, 0, 0, 0⟩ : LocalDT).hour = 0 ∧
           (⟨2024, 1, 31, 0, 0, 0⟩ : LocalDT).minute = 0 ∧
           (⟨2024, 1, 31, 0, 0, 0⟩ : LocalDT).second = 0)))) :=
  ⟨(C9_month_window 2024 1 ⟨2024, 1, 31, 23, 59, 59⟩ (by decide) (by decide)
      (by decide)).1,
   (C9_month_window 2024 1 ⟨2024, 1, 31, 0, 0, 0⟩ (by decide) (by decide)
      (by decide)).2⟩
